import Mathlib

/-!
Shallow embedding of the MCP orchestration core of the McpSystem repository:
the HTTP transport adapter (`src/client/mcp_http_transport.py`), the registry
and router (`src/server/mcp_manager.py`) and the agent loop
(`src/server/chat_service.py`), together with proofs of the specification
claims about them.

Python `dict`/`list` JSON values are modelled by the `Json` inductive below;
`json.dumps` is modelled by `Json.dumps` (default separators; string escaping
covers the backslash, the double quote and the common control characters,
which is exact on every payload appearing in the development).
-/

namespace McpSystem

/-- JSON values as produced by `json.loads` / consumed by `json.dumps`.
Numbers are modelled by integers (no claim involves fractional numbers). -/
inductive Json where
  | null : Json
  | bool (b : Bool) : Json
  | num (n : Int) : Json
  | str (s : String) : Json
  | arr (elements : List Json) : Json
  | obj (fields : List (String × Json)) : Json
  deriving Repr



/-- Escape one character the way `json.dumps` does (common cases). -/
def jsonEscapeChar (c : Char) : String :=
  if c = '\\' then "\\\\"
  else if c = '"' then "\\\""
  else if c = '\n' then "\\n"
  else if c = '\t' then "\\t"
  else if c = '\r' then "\\r"
  else String.singleton c

/-- Escape a string the way `json.dumps` does (common cases). -/
def jsonEscape (s : String) : String :=
  String.join (s.toList.map jsonEscapeChar)

mutual

/-- `json.dumps` with the default separators `", "` and `": "`. -/
def Json.dumps : Json → String
  | .null => "null"
  | .bool true => "true"
  | .bool false => "false"
  | .num n => toString n
  | .str s => "\"" ++ jsonEscape s ++ "\""
  | .arr xs => "[" ++ Json.dumpsList xs ++ "]"
  | .obj fs => "\x7b" ++ Json.dumpsFields fs ++ "\x7d"

/-- Comma-separated `json.dumps` of array elements. -/
def Json.dumpsList : List Json → String
  | [] => ""
  | [x] => Json.dumps x
  | x :: y :: rest => Json.dumps x ++ ", " ++ Json.dumpsList (y :: rest)

/-- Comma-separated `json.dumps` of object fields. -/
def Json.dumpsFields : List (String × Json) → String
  | [] => ""
  | [(k, v)] => "\"" ++ jsonEscape k ++ "\": " ++ Json.dumps v
  | (k, v) :: f :: rest =>
      "\"" ++ jsonEscape k ++ "\": " ++ Json.dumps v ++ ", " ++
        Json.dumpsFields (f :: rest)

end

/-- Python `d[k]` / `"k" in d` on a parsed JSON object: first binding wins
(`json.loads` never produces duplicate keys). -/
def jlookup (fields : List (String × Json)) (k : String) : Option Json :=
  match fields with
  | [] => none
  | (k', v) :: rest => if k' = k then some v else jlookup rest k

/-- Python truthiness of a JSON value (`if result:`). -/
def Json.truthy : Json → Bool
  | .null => false
  | .bool b => b
  | .num n => n != 0
  | .str s => s != ""
  | .arr xs => !xs.isEmpty
  | .obj fs => !fs.isEmpty

mutual

/-- Python `repr` of a JSON-parsed value (used by `str` on containers).
String escaping inside `repr` is not modelled; no claim inspects it. -/
def pyRepr : Json → String
  | .null => "None"
  | .bool true => "True"
  | .bool false => "False"
  | .num n => toString n
  | .str s => "'" ++ s ++ "'"
  | .arr xs => "[" ++ pyReprList xs ++ "]"
  | .obj fs => "\x7b" ++ pyReprFields fs ++ "\x7d"

/-- Comma-separated `repr` of list elements. -/
def pyReprList : List Json → String
  | [] => ""
  | [x] => pyRepr x
  | x :: y :: rest => pyRepr x ++ ", " ++ pyReprList (y :: rest)

/-- Comma-separated `repr` of dict entries. -/
def pyReprFields : List (String × Json) → String
  | [] => ""
  | [(k, v)] => "'" ++ k ++ "': " ++ pyRepr v
  | (k, v) :: f :: rest => "'" ++ k ++ "': " ++ pyRepr v ++ ", " ++ pyReprFields (f :: rest)

end

/-- Python `str` of a JSON-parsed value. -/
def pyStr : Json → String
  | .str s => s
  | j => pyRepr j

/-- Python `sep.join(parts)`. -/
def joinParts (sep : String) : List String → String
  | [] => ""
  | [x] => x
  | x :: y :: rest => x ++ sep ++ joinParts sep (y :: rest)

/-! ## Streaming-HTTP transport adapter (`src/client/mcp_http_transport.py`)

An HTTP exchange is modelled from the point at which `httpx` hands back a
response: status code, the optional `mcp-session-id` response header, and the
body. The body is either a plain JSON document or an event stream already
split into lines, each `data:` line carrying the outcome of `json.loads` on
its payload (`none` when malformed). -/

/-- One line of a `text/event-stream` body, as seen by `_parse_sse_response`
after splitting on newlines and stripping. -/
inductive SseLine where
  | dataLine (payload : Option Json) : SseLine
  | otherLine : SseLine

/-- Body of an HTTP response: plain JSON, or an event stream. The variant
stands for the `content-type` test `"text/event-stream" in content_type`. -/
inductive RespBody where
  | jsonBody (j : Json) : RespBody
  | sseBody (lines : List SseLine) : RespBody

/-- An HTTP response as observed by `_send_request` after `self._client.post`. -/
structure HttpResponse where
  status : Nat
  sessionHeader : Option String
  body : RespBody

/-- First `result` member among the dict elements of a batched SSE frame
(the inner `for item in parsed: ... break` loop). -/
def firstItemResult : List Json → Option Json
  | [] => none
  | .obj fs :: rest =>
      match jlookup fs "result" with
      | some r => some r
      | none => firstItemResult rest
  | _ :: rest => firstItemResult rest

/-- The contribution of one parsed top-level SSE frame:
a dict frame yields its `result` member; a list (batched) frame yields the
`result` member of its first dict element carrying one; anything else yields
nothing. Embeds the body of the frame loop of `_parse_sse_response`. -/
def sseFrameResult : Json → Option Json
  | .obj fs => jlookup fs "result"
  | .arr items => firstItemResult items
  | _ => none

/-- `_parse_sse_response`: scan every `data:` line in order; a frame bearing a
result overwrites the accumulator, every other frame (malformed JSON, dict
without `result`, batch without `result`) leaves it unchanged; return the
accumulator (`None` when no frame contributed). -/
def parseSseResponse (lines : List SseLine) : Option Json :=
  lines.foldl
    (fun acc l =>
      match l with
      | .otherLine => acc
      | .dataLine none => acc
      | .dataLine (some j) =>
          match sseFrameResult j with
          | some r => some r
          | none => acc)
    none

/-- Body/status handling of `_send_request` after the session-header check:
202 yields no payload, a 4xx/5xx status raises, an event-stream body is given
to the SSE parser (its result is returned even when `None`), and a plain JSON
body raises when it carries an `error` member and otherwise yields its
`result` member via `.get`. A non-dict JSON body raises (`"error" in body`
membership or the `.get` attribute access fails); its exact exception text is
not modelled. -/
def handleBody (resp : HttpResponse) : Except String (Option Json) :=
  if resp.status == 202 then .ok none
  else if 400 ≤ resp.status then
    .error ("HTTP " ++ toString resp.status)
  else
    match resp.body with
    | .sseBody lines => .ok (parseSseResponse lines)
    | .jsonBody j =>
        match j with
        | .obj fs =>
            match jlookup fs "error" with
            | some e => .error ("MCP error: " ++ pyStr e)
            | none => .ok (jlookup fs "result")
        | _ => .error "TypeError: JSON-RPC response body is not an object"

/-- Mutable per-adapter transport state: `self._session_id` and
`self._request_id`. -/
structure TransportState where
  session_id : Option String
  request_id : Nat

/-- `_get_headers`: bearer auth, content type, accept, and the
`Mcp-Session-Id` header exactly when a session id is held. -/
def getHeaders (auth_token : String) (session_id : Option String) :
    List (String × String) :=
  let headers := [("Authorization", "Bearer " ++ auth_token),
                  ("Content-Type", "application/json"),
                  ("Accept", "application/json, text/event-stream")]
  match session_id with
  | some s => headers ++ [("Mcp-Session-Id", s)]
  | none => headers

/-- Session update of `_send_request`: a `mcp-session-id` response header
overwrites the held session id; otherwise it is kept. This happens before any
status check, so it applies to error responses too. -/
def sessionUpdate (session_id : Option String) (resp : HttpResponse) :
    Option String :=
  match resp.sessionHeader with
  | some s => some s
  | none => session_id

/-- Outcome of one `_send_request` call: the headers that went out with the
POST, the adapter state afterwards, and the payload or the raised error. -/
structure SendOutcome where
  headersSent : List (String × String)
  newState : TransportState
  result : Except String (Option Json)

/-- `_send_request`, given the provider's response to the POST: a
non-notification consumes the next request id; the headers are computed from
the session id held before the POST; the response's session header (if any)
is stored; then the status and body are handled. -/
def sendRequest (auth_token : String) (st : TransportState)
    (is_notification : Bool) (resp : HttpResponse) : SendOutcome :=
  let st1 : TransportState :=
    if is_notification then st else { st with request_id := st.request_id + 1 }
  let headers := getHeaders auth_token st.session_id
  { headersSent := headers,
    newState := { st1 with session_id := sessionUpdate st1.session_id resp },
    result := handleBody resp }

/-- `close()`: drops the session id (the request counter is not reset). -/
def closeTransport (st : TransportState) : TransportState :=
  { st with session_id := none }

/-- One externally visible action of the adapter: a request/response exchange
(of any method — `initialize`, the `initialized` notification, `tools/list`,
`tools/call`) or a `close()`. -/
inductive TransportEvent where
  | send (is_notification : Bool) (resp : HttpResponse) : TransportEvent
  | close : TransportEvent

/-- Adapter state after one event. -/
def stepEvent (auth_token : String) (st : TransportState) :
    TransportEvent → TransportState
  | .send n resp => (sendRequest auth_token st n resp).newState
  | .close => closeTransport st

/-- Adapter state after a sequence of events. -/
def runEvents (auth_token : String) (st : TransportState)
    (evs : List TransportEvent) : TransportState :=
  evs.foldl (stepEvent auth_token) st

/-- The header lists sent by the adapter across a sequence of events, in
order (close events send nothing). -/
def sentHeaders (auth_token : String) (st : TransportState) :
    List TransportEvent → List (List (String × String))
  | [] => []
  | .send n resp :: rest =>
      (sendRequest auth_token st n resp).headersSent ::
        sentHeaders auth_token (stepEvent auth_token st (.send n resp)) rest
  | .close :: rest =>
      sentHeaders auth_token (stepEvent auth_token st .close) rest

/-- An event sequence that keeps session `s` undisturbed: no `close`, and no
response bearing a session header other than `s`. -/
def keepsSession (s : String) : List TransportEvent → Bool
  | [] => true
  | .close :: _ => false
  | .send _ resp :: rest =>
      (match resp.sessionHeader with
       | none => true
       | some s' => s' == s) && keepsSession s rest

/-- `MCPHttpClient.call_tool`, given the payload `_send_request` returned:
a missing or falsy payload reports `"No result"`; a dict payload with a
`content` list concatenates its text parts with `"\n"` (falling back to
`json.dumps` of the whole payload when no text part was found); any other
dict payload is `json.dumps`ed and a non-dict payload is `str`ed. The helper
`extractTextParts` walks the content list: `type == "text"` items contribute
`item.get("text", "")`, `type == "resource"` items contribute the inline
`resource["text"]` when present, everything else is skipped; non-string
contributions make the eventual `"\n".join` raise. -/
def extractTextParts : List Json → Except String (List String)
  | [] => .ok []
  | item :: rest =>
      match item with
      | .obj fs =>
          (match jlookup fs "type" with
           | some (.str "text") =>
               (match jlookup fs "text" with
                | some (.str s) => (extractTextParts rest).map (s :: ·)
                | none => (extractTextParts rest).map ("" :: ·)
                | some _ => .error "TypeError: sequence item: expected str instance")
           | some (.str "resource") =>
               (match jlookup fs "resource" with
                | some (.obj rs) =>
                    (match jlookup rs "text" with
                     | some (.str s) => (extractTextParts rest).map (s :: ·)
                     | some _ => .error "TypeError: sequence item: expected str instance"
                     | none => extractTextParts rest)
                | none => extractTextParts rest
                | some (.str s) =>
                    if (s.splitOn "text").length > 1 then
                      .error "TypeError: string indices must be integers"
                    else extractTextParts rest
                | some (.arr xs) =>
                    if xs.any (fun j => match j with | .str t => t == "text" | _ => false) then
                      .error "TypeError: list indices must be integers"
                    else extractTextParts rest
                | some _ => .error "TypeError: argument is not iterable")
           | _ => extractTextParts rest)
      | _ => extractTextParts rest

/-- `MCPHttpClient.call_tool` result normalization (see `extractTextParts`). -/
def normalizeCallToolResult (result : Option Json) : Except String String :=
  match result with
  | none => .ok "No result"
  | some j =>
      if j.truthy then
        match j with
        | .obj fs =>
            (match jlookup fs "content" with
             | some (.arr items) =>
                 (match extractTextParts items with
                  | .error e => .error e
                  | .ok parts =>
                      .ok (if parts.isEmpty then Json.dumps (.obj fs)
                           else joinParts "\n" parts))
             | some (.str _) => .ok (Json.dumps (.obj fs))
             | some (.obj _) => .ok (Json.dumps (.obj fs))
             | some _ => .error "TypeError: argument is not iterable"
             | none => .ok (Json.dumps (.obj fs)))
        | _ => .ok (pyStr j)
      else .ok "No result"

/-- The whole HTTP-transport tool call, from the provider's response to the
normalized payload handed to the router: `_send_request` then the `call_tool`
normalization. -/
def httpCallTool (resp : HttpResponse) : Except String String :=
  match handleBody resp with
  | .error e => .error e
  | .ok r => normalizeCallToolResult r

/-! ## Local-process (stdio) result normalization (`_call_stdio_tool`) -/

/-- One item of a stdio tool result's content list: either it has a `text`
attribute (`TextContent`, with its text) or it does not (images etc.). -/
inductive StdioContentItem where
  | withText (text : String) : StdioContentItem
  | withoutText : StdioContentItem

/-- `_call_stdio_tool` result normalization: an empty (or missing) content
list reports `"No result"`; otherwise the `text` attributes are concatenated
in order with nothing in between. -/
def stdioNormalizeResult (content : List StdioContentItem) : String :=
  if content.isEmpty then "No result"
  else
    content.foldl
      (fun acc item =>
        match item with
        | .withText t => acc ++ t
        | .withoutText => acc)
      ""

/-! ## Capability registry and router (`src/server/mcp_manager.py`)

`MCPManager.connect` walks the configured servers in order, keeping the ones
whose connect+handshake succeeds (`self.http_clients` / `self.stdio_sessions`,
insertion-ordered dicts); `_fetch_tools` then walks the HTTP clients first and
the stdio sessions second, merging each successfully fetched catalog into
`self.tools` and writing each tool name into `tool_server_map` /
`tool_transport_map` (dict assignment: the last write wins). Server names are
assumed pairwise distinct, as dict keys make duplicates collapse. -/

/-- The two transport kinds of `MCP_SERVERS` entries. -/
inductive Transport where
  | stdio : Transport
  | http : Transport
  deriving DecidableEq, Repr

/-- A tool descriptor as stored in the merged catalog. -/
structure MTool where
  name : String
  description : String
  inputSchema : Json

/-- One configured server together with the outcome of talking to it:
whether connect+handshake succeeds, whether `tools/list` succeeds, and the
catalog it returns in that case. -/
structure ServerSpec where
  name : String
  transport : Transport
  connectOk : Bool
  fetchOk : Bool
  tools : List MTool

/-- Python dict assignment `m[k] = v`: the binding for `k` is replaced. -/
def dinsert {α : Type} (m : List (String × α)) (k : String) (v : α) :
    List (String × α) :=
  (k, v) :: m.filter (fun p => p.1 != k)

/-- Python `m.get(k)`. -/
def dlookup {α : Type} : List (String × α) → String → Option α
  | [], _ => none
  | (k', v) :: rest, k => if k' == k then some v else dlookup rest k

/-- The HTTP servers that connected (in configuration order):
the keys of `self.http_clients`. -/
def connectedHttp (servers : List ServerSpec) : List ServerSpec :=
  servers.filter (fun s => s.transport == Transport.http && s.connectOk)

/-- The stdio servers that connected (in configuration order):
the keys of `self.stdio_sessions`. -/
def connectedStdio (servers : List ServerSpec) : List ServerSpec :=
  servers.filter (fun s => s.transport == Transport.stdio && s.connectOk)

/-- The order in which `_fetch_tools` merges catalogs: every connected HTTP
server first, then every connected stdio server. -/
def fetchOrder (servers : List ServerSpec) : List ServerSpec :=
  connectedHttp servers ++ connectedStdio servers

/-- The registry state built by `_fetch_tools`: merged catalog plus the two
routing dicts. -/
structure Registry where
  tools : List MTool
  tool_server_map : List (String × String)
  tool_transport_map : List (String × Transport)

/-- Merging one server's catalog into the registry: nothing on a failed
`tools/list`; otherwise the tools are appended to the catalog and each name
is written into both routing dicts. -/
def mergeServer (reg : Registry) (s : ServerSpec) : Registry :=
  if s.fetchOk then
    { tools := reg.tools ++ s.tools,
      tool_server_map :=
        s.tools.foldl (fun m t => dinsert m t.name s.name) reg.tool_server_map,
      tool_transport_map :=
        s.tools.foldl (fun m t => dinsert m t.name s.transport)
          reg.tool_transport_map }
  else reg

/-- The registry before `_fetch_tools` runs. -/
def emptyRegistry : Registry :=
  { tools := [], tool_server_map := [], tool_transport_map := [] }

/-- `_fetch_tools` over the whole fetch order. -/
def buildRegistry (servers : List ServerSpec) : Registry :=
  (fetchOrder servers).foldl mergeServer emptyRegistry

/-- The manager state after `connect` + `_fetch_tools`. -/
structure ManagerState where
  httpNames : List String
  stdioNames : List String
  registry : Registry

/-- `MCPManager.connect` followed by `_fetch_tools`. -/
def connectAndFetch (servers : List ServerSpec) : ManagerState :=
  { httpNames := (connectedHttp servers).map (fun s => s.name),
    stdioNames := (connectedStdio servers).map (fun s => s.name),
    registry := buildRegistry servers }

/-- `MCPManager.call_tool`: look the tool name up in the routing dicts; fail
`Unknown tool` when absent; dispatch to the owning server's connection over
the recorded transport, failing when that server is not among the connected
ones. `handlers server tool args` stands for the owning adapter's actual
call (with its result already normalized to the payload string); raised
errors, timeouts included, are its `.error` outcomes. -/
def callTool (st : ManagerState)
    (handlers : String → String → Json → Except String String)
    (tool_name : String) (arguments : Json) : Except String String :=
  match dlookup st.registry.tool_server_map tool_name with
  | none => .error ("Unknown tool: " ++ tool_name)
  | some server_name =>
      match dlookup st.registry.tool_transport_map tool_name with
      | some Transport.http =>
          if st.httpNames.contains server_name then
            handlers server_name tool_name arguments
          else .error ("HTTP server " ++ server_name ++ " not available")
      | _ =>
          if st.stdioNames.contains server_name then
            handlers server_name tool_name arguments
          else .error ("Stdio server " ++ server_name ++ " not available")

/-- The server whose catalog is merged last among those that fetched
successfully and contain a tool named `nm` (the dict's last write). -/
def lastMergedOwner (order : List ServerSpec) (nm : String) :
    Option ServerSpec :=
  order.foldl
    (fun acc s =>
      if s.fetchOk && s.tools.any (fun t => t.name == nm) then some s else acc)
    none

/-! ## Agent loop (`src/server/chat_service.py`)

`_process_with_openrouter` and `review_pr` drive a bounded loop of model
completions and tool executions. The embedding is parameterized by
- `oracle`: the model collaborator — `chat_completion` outcomes indexed by
  the number of completions issued so far in the turn (an `.error` is the
  completion call itself raising);
- `router`: `MCPManager.call_tool` composed with the `["result"]` access —
  the normalized payload string of a tool call, or the raised exception's
  `str`;
- `clean`: `_clean_tool_call_artifacts` (regex cleanup; the loop only
  depends on it through the value it returns).
`callIdx` and `trace` instrument the outbound model requests; they shadow no
program state and alter none. -/

/-- One tool call requested by the model (`tool_call["id"|"name"|"arguments"]`,
the arguments already parsed). -/
structure ToolCall where
  id : String
  name : String
  arguments : Json

/-- One `chat_completion` outcome: `(response_text, tool_calls)`; a `None` or
empty list of calls are indistinguishable to the loop and both modelled by
`[]`. -/
structure ModelResp where
  text : Option String
  toolCalls : List ToolCall

/-- A conversation message. Assistant messages appended by the tool branch
carry their calls as `(id, name, json.dumps(arguments))` triples, exactly the
strings the code puts in the dict. -/
inductive Msg where
  | system (content : String) : Msg
  | user (content : String) : Msg
  | assistant (content : String) : Msg
  | assistantCalls (content : String) (tool_calls : List (String × String × String)) : Msg
  | tool (tool_call_id : String) (content : String) : Msg
  deriving DecidableEq, Repr

/-- `config.MCP_USED_INDICATOR`. -/
def MCP_USED_INDICATOR : String := "\n\n✓ MCP was used"

/-- The finalize nudge of `_process_with_openrouter`. -/
def FINALIZE_PROMPT : String :=
  "Based on all the information gathered above, provide a complete answer now. Do NOT output any XML or function calls."

/-- The finalize nudge of `review_pr`. -/
def REVIEW_FINALIZE_PROMPT : String :=
  "Based on all the information gathered, provide the complete code review now. Do NOT output any XML or function calls."

/-- The `tools` member of the payload `chat_completion` actually posts:
present iff the `tools` argument is a non-empty list (`if tools:`). -/
def mkPayloadTools (tools : Option (List Json)) : Option (List Json) :=
  match tools with
  | some ts => if ts.isEmpty then none else some ts
  | none => none

/-- The `tool_choice` member of the posted payload: present iff `tools` made
it into the payload and the `tool_choice` argument is a non-empty string
(nested `if tools: ... if tool_choice:`). -/
def mkPayloadChoice (tools : Option (List Json)) (tc : Option String) :
    Option String :=
  match mkPayloadTools tools with
  | none => none
  | some _ =>
      match tc with
      | some s => if s == "" then none else some s
      | none => none

/-- One model request as issued over the wire: the iteration that issued it
and the payload members relevant to the claims. -/
structure ModelRequest where
  iter : Nat
  messages : List Msg
  tools : Option (List Json)
  tool_choice : Option String

/-- The loop's mutable state (`AgentIterationState` of the spec), plus the
`callIdx`/`trace` instrumentation of outbound completions. -/
structure LoopState where
  messages : List Msg
  iteration : Nat
  total_tool_calls : Nat
  mcp_was_used : Bool
  response_text : Option String
  callIdx : Nat
  trace : List ModelRequest

/-- `if response_text: response_text = self._clean_tool_call_artifacts(...)`. -/
def applyClean (clean : String → String) (t : Option String) : Option String :=
  match t with
  | none => none
  | some s => if s == "" then some s else some (clean s)

/-- Python falsiness of an optional response text (`if not response_text:`). -/
def textIsBlank (t : Option String) : Bool :=
  match t with
  | none => true
  | some s => s == ""

/-- One tool execution turned into its conversation message: the router's
payload on success, `json.dumps({"error": str(e)})` on any raised exception,
in both cases attached to the requesting call's id. -/
def toolResultMsg (router : String → Json → Except String String)
    (tc : ToolCall) : Msg :=
  match router tc.name tc.arguments with
  | .ok content => .tool tc.id content
  | .error e => .tool tc.id (Json.dumps (.obj [("error", .str e)]))

/-- The assistant message appended before the tool results
(`{"role": "assistant", "content": response_text or "", "tool_calls": ...}`). -/
def assistantCallsMsg (response_text : Option String)
    (toolCalls : List ToolCall) : Msg :=
  .assistantCalls
    (match response_text with
     | some s => s
     | none => "")
    (toolCalls.map (fun tc => (tc.id, tc.name, Json.dumps tc.arguments)))

/-- The request `_process_with_openrouter` issues from state `st`: on the
last iteration (`iteration == max_iterations`) tools are disabled for the
call; the payload members come from `chat_completion`'s guards. -/
def processRequestAt (cap : Nat) (catalog : List Json)
    (tool_choice : Option String) (st : LoopState) : ModelRequest :=
  let iteration := st.iteration + 1
  let is_last_iteration := iteration == cap
  let current_tools : Option (List Json) :=
    if is_last_iteration then none else some catalog
  let current_tool_choice := if is_last_iteration then none else tool_choice
  let tools_arg : Option (List Json) :=
    match current_tools with
    | some ts => if ts.isEmpty then none else some ts
    | none => none
  { iter := iteration, messages := st.messages,
    tools := mkPayloadTools tools_arg,
    tool_choice := mkPayloadChoice tools_arg current_tool_choice }

/-- The request `review_pr` issues from state `st`: tool choice is
`"required"` on the first iteration, absent on the last, `"auto"` otherwise
(in the code's branch order, so `"required"` wins when `cap = 1`; the payload
still drops it because tools are absent). -/
def reviewRequestAt (cap : Nat) (catalog : List Json) (st : LoopState) :
    ModelRequest :=
  let iteration := st.iteration + 1
  let is_last_iteration := iteration == cap
  let current_tools : Option (List Json) :=
    if is_last_iteration then none else some catalog
  let current_tool_choice :=
    if iteration == 1 then some "required"
    else if is_last_iteration then none
    else some "auto"
  { iter := iteration, messages := st.messages,
    tools := mkPayloadTools current_tools,
    tool_choice := mkPayloadChoice current_tools current_tool_choice }

/-- The tool-free finalize request appended when the model returned neither
calls nor text. -/
def finalizeRequestAt (prompt : String) (st : LoopState) : ModelRequest :=
  { iter := st.iteration + 1, messages := st.messages ++ [Msg.user prompt],
    tools := none, tool_choice := none }

/-- The state after executing one iteration's tool calls: mark tool use,
count the calls, append the assistant message and every result in call
order, and step to the next completion. -/
def toolStepState (router : String → Json → Except String String)
    (st : LoopState) (req : ModelRequest) (response_text : Option String)
    (toolCalls : List ToolCall) : LoopState :=
  { messages := st.messages ++ [assistantCallsMsg response_text toolCalls] ++
      toolCalls.map (toolResultMsg router),
    iteration := st.iteration + 1,
    total_tool_calls := st.total_tool_calls + toolCalls.length,
    mcp_was_used := true,
    response_text := response_text,
    callIdx := st.callIdx + 1,
    trace := st.trace ++ [req] }

/-- The `while iteration < max_iterations` loop of `_process_with_openrouter`
(lines 138-231), with `fuel = max_iterations - iteration` as the structural
measure. An `.error` is an exception escaping to the enclosing `except`,
carrying the state at raise time. -/
def processLoopGo (oracle : Nat → Except String ModelResp)
    (router : String → Json → Except String String) (clean : String → String)
    (cap : Nat) (catalog : List Json) (tool_choice : Option String) :
    Nat → LoopState → Except (String × LoopState) LoopState
  | 0, st => .ok st
  | fuel + 1, st =>
      let req := processRequestAt cap catalog tool_choice st
      match oracle st.callIdx with
      | .error e =>
          .error (e, { st with iteration := st.iteration + 1,
                               callIdx := st.callIdx + 1,
                               trace := st.trace ++ [req] })
      | .ok resp =>
          let response_text := applyClean clean resp.text
          if resp.toolCalls.isEmpty then
            if textIsBlank response_text then
              let req2 := finalizeRequestAt FINALIZE_PROMPT st
              match oracle (st.callIdx + 1) with
              | .error e =>
                  .error (e, { st with
                    messages := st.messages ++ [Msg.user FINALIZE_PROMPT],
                    iteration := st.iteration + 1,
                    callIdx := st.callIdx + 2,
                    trace := st.trace ++ [req, req2] })
              | .ok resp2 =>
                  .ok { st with
                    messages := st.messages ++ [Msg.user FINALIZE_PROMPT],
                    iteration := st.iteration + 1,
                    response_text := applyClean clean resp2.text,
                    callIdx := st.callIdx + 2,
                    trace := st.trace ++ [req, req2] }
            else
              .ok { st with iteration := st.iteration + 1,
                            response_text := response_text,
                            callIdx := st.callIdx + 1,
                            trace := st.trace ++ [req] }
          else
            processLoopGo oracle router clean cap catalog tool_choice fuel
              (toolStepState router st req response_text resp.toolCalls)

/-- The `while iteration < max_iterations` loop of `review_pr`
(lines 302-387): identical shape, different tool-choice policy and finalize
prompt. -/
def reviewLoopGo (oracle : Nat → Except String ModelResp)
    (router : String → Json → Except String String) (clean : String → String)
    (cap : Nat) (catalog : List Json) :
    Nat → LoopState → Except (String × LoopState) LoopState
  | 0, st => .ok st
  | fuel + 1, st =>
      let req := reviewRequestAt cap catalog st
      match oracle st.callIdx with
      | .error e =>
          .error (e, { st with iteration := st.iteration + 1,
                               callIdx := st.callIdx + 1,
                               trace := st.trace ++ [req] })
      | .ok resp =>
          let response_text := applyClean clean resp.text
          if resp.toolCalls.isEmpty then
            if textIsBlank response_text then
              let req2 := finalizeRequestAt REVIEW_FINALIZE_PROMPT st
              match oracle (st.callIdx + 1) with
              | .error e =>
                  .error (e, { st with
                    messages := st.messages ++ [Msg.user REVIEW_FINALIZE_PROMPT],
                    iteration := st.iteration + 1,
                    callIdx := st.callIdx + 2,
                    trace := st.trace ++ [req, req2] })
              | .ok resp2 =>
                  .ok { st with
                    messages := st.messages ++ [Msg.user REVIEW_FINALIZE_PROMPT],
                    iteration := st.iteration + 1,
                    response_text := applyClean clean resp2.text,
                    callIdx := st.callIdx + 2,
                    trace := st.trace ++ [req, req2] }
            else
              .ok { st with iteration := st.iteration + 1,
                            response_text := response_text,
                            callIdx := st.callIdx + 1,
                            trace := st.trace ++ [req] }
          else
            reviewLoopGo oracle router clean cap catalog fuel
              (toolStepState router st req response_text resp.toolCalls)

/-- The loop state before the first iteration. -/
def initLoopState (initial_messages : List Msg) : LoopState :=
  { messages := initial_messages, iteration := 0, total_tool_calls := 0,
    mcp_was_used := false, response_text := none, callIdx := 0, trace := [] }

/-- The whole `while` loop of `_process_with_openrouter`, from the initial
conversation. `tool_choice = "auto" if self.openrouter_tools else None`. -/
def processLoopRun (oracle : Nat → Except String ModelResp)
    (router : String → Json → Except String String) (clean : String → String)
    (cap : Nat) (catalog : List Json) (initial_messages : List Msg) :
    Except (String × LoopState) LoopState :=
  processLoopGo oracle router clean cap catalog
    (if catalog.isEmpty then none else some "auto") cap
    (initLoopState initial_messages)

/-- The state a loop outcome ends in, raise or return. -/
def loopOutState : Except (String × LoopState) LoopState → LoopState
  | .ok st => st
  | .error (_, st) => st

/-- `_process_with_openrouter`'s returned triple: on a normal loop exit the
answer is tagged with `MCP_USED_INDICATOR` when non-blank and a tool was
used; any exception reaching the enclosing `except` yields
`(None, 0, False)`. (Conversation-history persistence is outside the
embedded state.) -/
def processWithOpenrouter (oracle : Nat → Except String ModelResp)
    (router : String → Json → Except String String) (clean : String → String)
    (cap : Nat) (catalog : List Json) (initial_messages : List Msg) :
    Option String × Nat × Bool :=
  match processLoopRun oracle router clean cap catalog initial_messages with
  | .error _ => (none, 0, false)
  | .ok st =>
      let response_text :=
        match st.response_text with
        | some s =>
            if s != "" && st.mcp_was_used then some (s ++ MCP_USED_INDICATOR)
            else some s
        | none => none
      (response_text, st.total_tool_calls, st.mcp_was_used)

/-- `process_message`'s returned triple, from `_process_with_openrouter`'s:
`response_text or "Sorry, something went wrong."`. -/
def processMessageResult (r : Option String × Nat × Bool) :
    String × Nat × Bool :=
  (match r.1 with
   | some s => if s == "" then "Sorry, something went wrong." else s
   | none => "Sorry, something went wrong.",
   r.2.1, r.2.2)

/-- `review_pr`'s returned pair: `response_text or "Failed to generate
review."` on a normal exit; `f"Error during review: {e}"` with the tool-call
count accumulated so far when an exception reaches the `except`. The code
hardcodes `max_iterations = 15`; the loop is embedded with the cap as a
parameter and `review_pr` instantiates it at 15. -/
def reviewPr (oracle : Nat → Except String ModelResp)
    (router : String → Json → Except String String) (clean : String → String)
    (catalog : List Json) (initial_messages : List Msg) : String × Nat :=
  match reviewLoopGo oracle router clean 15 catalog 15
      (initLoopState initial_messages) with
  | .ok st =>
      (match st.response_text with
       | some s => if s == "" then "Failed to generate review." else s
       | none => "Failed to generate review.",
       st.total_tool_calls)
  | .error (e, st) => ("Error during review: " ++ e, st.total_tool_calls)

/-- A batched-frame element that carries no `result` member. -/
def sseItemNoResult : Json → Bool
  | .obj fs => (jlookup fs "result").isNone
  | _ => true

/-- An SSE line that contributes no result: a non-`data:` line, malformed
JSON, or a frame without a `result` member (an error-only frame included). -/
def sseLineNoResult : SseLine → Bool
  | .otherLine => true
  | .dataLine none => true
  | .dataLine (some j) => (sseFrameResult j).isNone

/-- Whether a server contributes the name `nm` during the merge. -/
def ownsName (s : ServerSpec) (nm : String) : Bool :=
  s.fetchOk && s.tools.any (fun t => t.name == nm)

/-- A well-bounded model request: issued at an iteration within the cap, and
with tools and tool choice absent from the payload when issued at the cap. -/
def reqBoundOk (cap : Nat) (r : ModelRequest) : Prop :=
  r.iter ≤ cap ∧ (r.iter = cap → r.tools = none ∧ r.tool_choice = none)

/-! ## Claim C4 -/

/-- C4 counterexample: for a successful tool result with content parts
`[{type:text,text:"A"},{type:text,text:"B"}]`, the local-process transport
normalizes to `"AB"`, but the streaming-HTTP adapter joins text parts with a
newline and yields `"A\nB"`, not the claimed `"AB"`. -/
theorem C4_counterexample :
    stdioNormalizeResult [.withText "A", .withText "B"] = "AB" ∧
    normalizeCallToolResult (some (.obj [("content", .arr
      [.obj [("type", .str "text"), ("text", .str "A")],
       .obj [("type", .str "text"), ("text", .str "B")]])])) =
      .ok "A\nB" ∧
    "A\nB" ≠ "AB" := by
  refine ⟨rfl, rfl, by decide⟩

/-- C4 (amended): for every successful tool call whose result content is the
two text parts `[{type:text,text:a},{type:text,text:b}]`, the local-process
transport concatenates the fragments directly (yielding `a ++ b`), while the
streaming-HTTP adapter joins them with a newline (yielding `a ++ "\n" ++ b`). -/
theorem C4_two_text_parts_normalization (a b : String) :
    stdioNormalizeResult [.withText a, .withText b] = a ++ b ∧
    normalizeCallToolResult (some (.obj [("content", .arr
      [.obj [("type", .str "text"), ("text", .str a)],
       .obj [("type", .str "text"), ("text", .str b)]])])) =
      .ok (a ++ "\n" ++ b) := by
  constructor
  · show ("" ++ a) ++ b = a ++ b
    rw [String.empty_append]
  · rfl

/-! ## Claim C10 -/

lemma parseSse_foldl_no_result (lines : List SseLine)
    (h : lines.all sseLineNoResult = true) (acc : Option Json) :
    lines.foldl
      (fun acc l =>
        match l with
        | .otherLine => acc
        | .dataLine none => acc
        | .dataLine (some j) =>
            match sseFrameResult j with
            | some r => some r
            | none => acc)
      acc = acc := by
  induction lines generalizing acc with
  | nil => rfl
  | cons l rest ih =>
      simp only [List.all_cons, Bool.and_eq_true] at h
      obtain ⟨hl, hrest⟩ := h
      cases l with
      | otherLine => exact ih hrest acc
      | dataLine p =>
          cases p with
          | none => exact ih hrest acc
          | some j =>
              simp only [sseLineNoResult, Option.isNone_iff_eq_none] at hl
              simp only [List.foldl_cons, hl]
              exact ih hrest acc

lemma firstItemResult_append_of_no_result (pre post : List Json)
    (fs : List (String × Json)) (r : Json)
    (hpre : pre.all sseItemNoResult = true) (hr : jlookup fs "result" = some r) :
    firstItemResult (pre ++ .obj fs :: post) = some r := by
  induction pre with
  | nil => simp [firstItemResult, hr]
  | cons item rest ih =>
      simp only [List.all_cons, Bool.and_eq_true] at hpre
      obtain ⟨hitem, hrest⟩ := hpre
      cases item with
      | obj fs' =>
          simp only [sseItemNoResult, Option.isNone_iff_eq_none] at hitem
          simpa [firstItemResult, hitem] using ih hrest
      | null => simpa [firstItemResult] using ih hrest
      | bool b => simpa [firstItemResult] using ih hrest
      | num n => simpa [firstItemResult] using ih hrest
      | str s => simpa [firstItemResult] using ih hrest
      | arr xs => simpa [firstItemResult] using ih hrest

/-- C10: the streaming-HTTP adapter treats JSON-RPC errors asymmetrically by
response framing. (1) A plain-JSON response body carrying an `error` member
makes `_send_request` raise. (2) An event-stream response whose frames all
lack a `result` member (error-only frames, malformed frames) parses to
`None`, and the tool call then reports the successful payload
`{"result": "No result"}` instead of raising. (3) A later frame carrying a
`result` overwrites an earlier one (last frame wins). (4) Inside a batched
array frame, the first element carrying a `result` is taken. -/
theorem C10_http_error_asymmetry :
    (∀ (sh : Option String) (fs : List (String × Json)) (e : Json),
        jlookup fs "error" = some e →
        ∃ msg, handleBody ⟨200, sh, .jsonBody (.obj fs)⟩ = .error msg) ∧
    (∀ (sh : Option String) (lines : List SseLine),
        lines.all sseLineNoResult = true →
        parseSseResponse lines = none ∧
        httpCallTool ⟨200, sh, .sseBody lines⟩ = .ok "No result") ∧
    (∀ (lines : List SseLine) (r : Json),
        parseSseResponse (lines ++ [.dataLine (some (.obj [("result", r)]))]) =
          some r) ∧
    (∀ (pre post : List Json) (fs : List (String × Json)) (r : Json),
        pre.all sseItemNoResult = true → jlookup fs "result" = some r →
        parseSseResponse [.dataLine (some (.arr (pre ++ .obj fs :: post)))] =
          some r) := by
  refine ⟨?_, ?_, ?_, ?_⟩
  · intro sh fs e he
    exact ⟨"MCP error: " ++ pyStr e, by simp [handleBody, he]⟩
  · intro sh lines h
    have hparse : parseSseResponse lines = none :=
      parseSse_foldl_no_result lines h none
    refine ⟨hparse, ?_⟩
    simp [httpCallTool, handleBody, hparse, normalizeCallToolResult]
  · intro lines r
    simp [parseSseResponse, List.foldl_append, sseFrameResult, jlookup]
  · intro pre post fs r hpre hr
    simp [parseSseResponse, sseFrameResult,
      firstItemResult_append_of_no_result pre post fs r hpre hr]

/-- C10 witness: a concrete plain-JSON error body raises; a concrete stream
of one error-only frame and one malformed frame parses to `None` and the call
reports `"No result"`; a concrete later result frame overwrites an earlier
one; a concrete batched frame yields its first result element. -/
theorem C10_http_error_asymmetry_witness :
    (jlookup [("error", .str "boom")] "error" = some (.str "boom") ∧
      ∃ msg, handleBody ⟨200, none, .jsonBody (.obj [("error", .str "boom")])⟩ =
        .error msg) ∧
    ([SseLine.dataLine (some (.obj [("error", .str "boom")])),
      SseLine.dataLine none].all sseLineNoResult = true ∧
      parseSseResponse
        [SseLine.dataLine (some (.obj [("error", .str "boom")])),
         SseLine.dataLine none] = none ∧
      httpCallTool ⟨200, none, .sseBody
        [SseLine.dataLine (some (.obj [("error", .str "boom")])),
         SseLine.dataLine none]⟩ = .ok "No result") ∧
    parseSseResponse
      [SseLine.dataLine (some (.obj [("result", .str "one")])),
       SseLine.dataLine (some (.obj [("result", .str "two")]))] =
      some (.str "two") ∧
    parseSseResponse
      [SseLine.dataLine (some (.arr
        [.obj [("error", .str "x")],
         .obj [("result", .str "first")],
         .obj [("result", .str "second")]]))] = some (.str "first") := by
  refine ⟨⟨rfl, C10_http_error_asymmetry.1 none [("error", .str "boom")]
      (.str "boom") rfl⟩, ⟨rfl, ?_⟩, ?_, ?_⟩
  · exact C10_http_error_asymmetry.2.1 none
      [SseLine.dataLine (some (.obj [("error", .str "boom")])),
       SseLine.dataLine none] rfl
  · exact C10_http_error_asymmetry.2.2.1
      [SseLine.dataLine (some (.obj [("result", .str "one")]))] (.str "two")
  · exact C10_http_error_asymmetry.2.2.2
      [.obj [("error", .str "x")]]
      [.obj [("result", .str "second")]]
      [("result", .str "first")] (.str "first") rfl rfl

/-! ## Claim C8 -/

lemma sentHeaders_keepsSession (auth_token s : String) :
    ∀ (evs : List TransportEvent) (st : TransportState),
      st.session_id = some s → keepsSession s evs = true →
      (∀ hs ∈ sentHeaders auth_token st evs, ("Mcp-Session-Id", s) ∈ hs) ∧
      (runEvents auth_token st evs).session_id = some s := by
  intro evs
  induction evs with
  | nil =>
      intro st hst _
      exact ⟨fun hs h => absurd h (by simp [sentHeaders]), hst⟩
  | cons e rest ih =>
      intro st hst hk
      cases e with
      | close => simp [keepsSession] at hk
      | send n resp =>
          simp only [keepsSession, Bool.and_eq_true] at hk
          obtain ⟨hresp, hrest⟩ := hk
          have hnew : (stepEvent auth_token st (.send n resp)).session_id = some s := by
            cases hsh : resp.sessionHeader with
            | none =>
                simp [stepEvent, sendRequest, sessionUpdate, hsh]
                cases hni : n <;> simp [hni, hst]
            | some s' =>
                rw [hsh] at hresp
                simp only [beq_iff_eq] at hresp
                subst hresp
                cases hni : n <;> simp [stepEvent, sendRequest, sessionUpdate, hsh, hni]
          obtain ⟨ihmem, ihrun⟩ := ih _ hnew hrest
          refine ⟨?_, ?_⟩
          · intro hs hmem
            simp only [sentHeaders, List.mem_cons] at hmem
            rcases hmem with hmem | hmem
            · subst hmem
              simp [sendRequest, getHeaders, hst]
            · exact ihmem hs hmem
          · simpa [runEvents, List.foldl_cons] using ihrun

/-- C8: for the streaming-HTTP adapter, (1) a session identifier observed in
any response is stored; (2) once the adapter holds session id `s`, every
subsequent outgoing request — the `initialized` notification and all
`tools/list` / `tools/call` requests included — carries the identical
`Mcp-Session-Id: s` header, as long as no response replaces the id and no
`close()` intervenes; (3) `close()` resets the session; and (4) with no
session held, no request carries the header. -/
theorem C8_session_affinity (auth_token s : String) (st : TransportState)
    (evs : List TransportEvent) (hst : st.session_id = some s)
    (hk : keepsSession s evs = true) :
    (∀ (st0 : TransportState) (n : Bool) (resp : HttpResponse),
        resp.sessionHeader = some s →
        ((sendRequest auth_token st0 n resp).newState).session_id = some s) ∧
    (∀ hs ∈ sentHeaders auth_token st evs, ("Mcp-Session-Id", s) ∈ hs) ∧
    (runEvents auth_token st evs).session_id = some s ∧
    (stepEvent auth_token (runEvents auth_token st evs) .close).session_id =
      none ∧
    (∀ v, ("Mcp-Session-Id", v) ∉ getHeaders auth_token none) := by
  obtain ⟨hmem, hrun⟩ := sentHeaders_keepsSession auth_token s evs st hst hk
  refine ⟨?_, hmem, hrun, ?_, ?_⟩
  · intro st0 n resp hresp
    cases n <;> simp [sendRequest, sessionUpdate, hresp]
  · simp [stepEvent, closeTransport]
  · intro v
    simp [getHeaders]

/-- C8 witness: a concrete adapter that receives session id `"S1"` on its
`initialize` response carries `Mcp-Session-Id: S1` on the `initialized`
notification and on the following `tools/list` and `tools/call` exchanges,
holds the id at the end, and drops it on `close()`. -/
theorem C8_session_affinity_witness :
    (({ session_id := some "S1", request_id := 1 } : TransportState).session_id =
        some "S1" ∧
      keepsSession "S1"
        [.send true ⟨202, none, .jsonBody .null⟩,
         .send false ⟨200, none, .jsonBody (.obj [("result", .obj [("tools", .arr [])])])⟩,
         .send false ⟨200, some "S1", .sseBody [.dataLine (some (.obj [("result", .str "ok")]))]⟩] =
        true) ∧
    ((∀ (st0 : TransportState) (n : Bool) (resp : HttpResponse),
        resp.sessionHeader = some "S1" →
        ((sendRequest "tok" st0 n resp).newState).session_id = some "S1") ∧
      (∀ hs ∈ sentHeaders "tok" { session_id := some "S1", request_id := 1 }
          [.send true ⟨202, none, .jsonBody .null⟩,
           .send false ⟨200, none, .jsonBody (.obj [("result", .obj [("tools", .arr [])])])⟩,
           .send false ⟨200, some "S1", .sseBody [.dataLine (some (.obj [("result", .str "ok")]))]⟩],
          ("Mcp-Session-Id", "S1") ∈ hs) ∧
      (runEvents "tok" { session_id := some "S1", request_id := 1 }
          [.send true ⟨202, none, .jsonBody .null⟩,
           .send false ⟨200, none, .jsonBody (.obj [("result", .obj [("tools", .arr [])])])⟩,
           .send false ⟨200, some "S1", .sseBody [.dataLine (some (.obj [("result", .str "ok")]))]⟩]).session_id =
        some "S1" ∧
      (stepEvent "tok" (runEvents "tok" { session_id := some "S1", request_id := 1 }
          [.send true ⟨202, none, .jsonBody .null⟩,
           .send false ⟨200, none, .jsonBody (.obj [("result", .obj [("tools", .arr [])])])⟩,
           .send false ⟨200, some "S1", .sseBody [.dataLine (some (.obj [("result", .str "ok")]))]⟩])
          .close).session_id = none ∧
      (∀ v, ("Mcp-Session-Id", v) ∉ getHeaders "tok" none)) :=
  ⟨⟨rfl, rfl⟩,
   C8_session_affinity "tok" "S1" { session_id := some "S1", request_id := 1 }
     [.send true ⟨202, none, .jsonBody .null⟩,
      .send false ⟨200, none, .jsonBody (.obj [("result", .obj [("tools", .arr [])])])⟩,
      .send false ⟨200, some "S1", .sseBody [.dataLine (some (.obj [("result", .str "ok")]))]⟩]
     rfl rfl⟩

/-! ## Registry lemmas (for claims C3 and C5) -/

lemma dlookup_filter_ne {α : Type} (m : List (String × α)) (k k' : String)
    (h : (k == k') = false) :
    dlookup (m.filter (fun p => p.1 != k)) k' = dlookup m k' := by
  induction m with
  | nil => rfl
  | cons p rest ih =>
      by_cases hpk : p.1 = k
      · have hfilter : (p.1 != k) = false := by simp [hpk]
        have hpk' : (p.1 == k') = false := by
          subst hpk; simpa using h
        simp [List.filter_cons, hfilter, dlookup, hpk', ih]
      · have hfilter : (p.1 != k) = true := by simp [hpk]
        simp [List.filter_cons, hfilter, dlookup, ih]

lemma dlookup_dinsert {α : Type} (m : List (String × α)) (k k' : String)
    (v : α) :
    dlookup (dinsert m k v) k' = if k == k' then some v else dlookup m k' := by
  by_cases hk : k == k'
  · simp [dinsert, dlookup, hk]
  · simp only [Bool.not_eq_true] at hk
    simp [dinsert, dlookup, hk, dlookup_filter_ne m k k' hk]

lemma dlookup_foldl_dinsert {α : Type} (v : α) (tools : List MTool)
    (m : List (String × α)) (nm : String) :
    dlookup (tools.foldl (fun m t => dinsert m t.name v) m) nm =
      if tools.any (fun t => t.name == nm) then some v else dlookup m nm := by
  induction tools generalizing m with
  | nil => simp
  | cons t rest ih =>
      rw [List.foldl_cons, ih]
      by_cases ha : rest.any (fun t => t.name == nm)
      · simp [ha]
      · simp only [Bool.not_eq_true] at ha
        by_cases ht : t.name == nm
        · simp [List.any_cons, ha, ht, dlookup_dinsert]
        · simp only [Bool.not_eq_true] at ht
          simp [List.any_cons, ha, ht, dlookup_dinsert]

lemma lastMergedOwner_foldl_acc (nm : String) (order : List ServerSpec) :
    ∀ acc : Option ServerSpec,
      order.foldl
        (fun acc s =>
          if s.fetchOk && s.tools.any (fun t => t.name == nm) then some s
          else acc) acc =
      match lastMergedOwner order nm with
      | some q => some q
      | none => acc := by
  induction order with
  | nil => intro acc; rfl
  | cons s rest ih =>
      intro acc
      rw [List.foldl_cons]
      rw [ih]
      have hs := ih (if s.fetchOk && s.tools.any (fun t => t.name == nm)
        then some s else acc)
      conv_rhs => rw [lastMergedOwner, List.foldl_cons]
      rw [show (rest.foldl
        (fun acc s =>
          if s.fetchOk && s.tools.any (fun t => t.name == nm) then some s
          else acc)
        (if s.fetchOk && s.tools.any (fun t => t.name == nm) then some s
         else none)) =
        match lastMergedOwner rest nm with
        | some q => some q
        | none => (if s.fetchOk && s.tools.any (fun t => t.name == nm)
            then some s else none) from ih _]
      cases lastMergedOwner rest nm with
      | some q => rfl
      | none =>
          by_cases hc : s.fetchOk && s.tools.any (fun t => t.name == nm)
          · simp [hc]
          · simp [hc]

lemma lastMergedOwner_cons (nm : String) (s : ServerSpec)
    (rest : List ServerSpec) :
    lastMergedOwner (s :: rest) nm =
      match lastMergedOwner rest nm with
      | some q => some q
      | none => if ownsName s nm then some s else none := by
  rw [lastMergedOwner, List.foldl_cons, lastMergedOwner_foldl_acc nm rest]
  rfl

lemma lastMergedOwner_spec (nm : String) :
    ∀ (order : List ServerSpec) (q : ServerSpec),
      lastMergedOwner order nm = some q →
      q ∈ order ∧ q.fetchOk = true ∧
        q.tools.any (fun t => t.name == nm) = true := by
  intro order
  induction order with
  | nil => intro q h; simp [lastMergedOwner] at h
  | cons s rest ih =>
      intro q h
      rw [lastMergedOwner_cons] at h
      cases hrest : lastMergedOwner rest nm with
      | some q' =>
          rw [hrest] at h
          obtain ⟨h1, h2, h3⟩ := ih q' hrest
          cases h
          exact ⟨List.mem_cons_of_mem s h1, h2, h3⟩
      | none =>
          rw [hrest] at h
          by_cases hc : ownsName s nm
          · rw [if_pos hc] at h
            cases h
            have := hc
            simp only [ownsName, Bool.and_eq_true] at this
            exact ⟨List.mem_cons_self s rest, this.1, this.2⟩
          · rw [if_neg hc] at h
            exact absurd h (by simp)

lemma lastMergedOwner_isSome (nm : String) :
    ∀ (order : List ServerSpec) (s : ServerSpec),
      s ∈ order → ownsName s nm = true →
      ∃ q, lastMergedOwner order nm = some q := by
  intro order
  induction order with
  | nil => intro s h; cases h
  | cons hd rest ih =>
      intro s hmem hown
      rw [lastMergedOwner_cons]
      cases hrest : lastMergedOwner rest nm with
      | some q' => exact ⟨q', rfl⟩
      | none =>
          rcases List.mem_cons.mp hmem with heq | htail
          · subst heq
            exact ⟨s, by simp [hown]⟩
          · obtain ⟨q, hq⟩ := ih s htail hown
            rw [hq] at hrest
            cases hrest

lemma mergeFold_server_map (nm : String) :
    ∀ (order : List ServerSpec) (reg : Registry),
      dlookup ((order.foldl mergeServer reg).tool_server_map) nm =
        match lastMergedOwner order nm with
        | some q => some q.name
        | none => dlookup reg.tool_server_map nm := by
  intro order
  induction order with
  | nil => intro reg; rfl
  | cons s rest ih =>
      intro reg
      rw [List.foldl_cons, ih, lastMergedOwner_cons]
      cases hrest : lastMergedOwner rest nm with
      | some q => rfl
      | none =>
          show dlookup (mergeServer reg s).tool_server_map nm = _
          by_cases hf : s.fetchOk
          · rw [mergeServer, if_pos hf]
            show dlookup (s.tools.foldl
              (fun m t => dinsert m t.name s.name) reg.tool_server_map) nm = _
            rw [dlookup_foldl_dinsert]
            by_cases ha : s.tools.any (fun t => t.name == nm)
            · simp [ha, ownsName, hf]
            · simp only [Bool.not_eq_true] at ha
              simp [ha, ownsName, hf]
          · simp only [Bool.not_eq_true] at hf
            rw [mergeServer, if_neg (by simp [hf])]
            simp [ownsName, hf]

lemma mergeFold_transport_map (nm : String) :
    ∀ (order : List ServerSpec) (reg : Registry),
      dlookup ((order.foldl mergeServer reg).tool_transport_map) nm =
        match lastMergedOwner order nm with
        | some q => some q.transport
        | none => dlookup reg.tool_transport_map nm := by
  intro order
  induction order with
  | nil => intro reg; rfl
  | cons s rest ih =>
      intro reg
      rw [List.foldl_cons, ih, lastMergedOwner_cons]
      cases hrest : lastMergedOwner rest nm with
      | some q => rfl
      | none =>
          show dlookup (mergeServer reg s).tool_transport_map nm = _
          by_cases hf : s.fetchOk
          · rw [mergeServer, if_pos hf]
            show dlookup (s.tools.foldl
              (fun m t => dinsert m t.name s.transport)
              reg.tool_transport_map) nm = _
            rw [dlookup_foldl_dinsert]
            by_cases ha : s.tools.any (fun t => t.name == nm)
            · simp [ha, ownsName, hf]
            · simp only [Bool.not_eq_true] at ha
              simp [ha, ownsName, hf]
          · simp only [Bool.not_eq_true] at hf
            rw [mergeServer, if_neg (by simp [hf])]
            simp [ownsName, hf]

lemma mergeFold_tools_mono :
    ∀ (order : List ServerSpec) (reg : Registry) (t : MTool),
      t ∈ reg.tools → t ∈ (order.foldl mergeServer reg).tools := by
  intro order
  induction order with
  | nil => intro reg t h; exact h
  | cons s rest ih =>
      intro reg t h
      rw [List.foldl_cons]
      refine ih _ t ?_
      by_cases hf : s.fetchOk
      · rw [mergeServer, if_pos hf]
        exact List.mem_append_left _ h
      · rwa [mergeServer, if_neg hf]

lemma mergeFold_tools_mem :
    ∀ (order : List ServerSpec) (reg : Registry) (s : ServerSpec) (t : MTool),
      s ∈ order → s.fetchOk = true → t ∈ s.tools →
      t ∈ (order.foldl mergeServer reg).tools := by
  intro order
  induction order with
  | nil => intro _ _ _ h; cases h
  | cons hd rest ih =>
      intro reg s t hmem hf ht
      rw [List.foldl_cons]
      rcases List.mem_cons.mp hmem with heq | htail
      · subst heq
        refine mergeFold_tools_mono rest _ t ?_
        rw [mergeServer, if_pos hf]
        exact List.mem_append_right _ ht
      · exact ih _ s t htail hf ht

lemma mem_fetchOrder_of_connected (servers : List ServerSpec)
    (s : ServerSpec) (hs : s ∈ servers) (hc : s.connectOk = true) :
    s ∈ fetchOrder servers := by
  cases htr : s.transport with
  | http =>
      exact List.mem_append_left _
        (List.mem_filter.mpr ⟨hs, by simp [htr, hc]⟩)
  | stdio =>
      exact List.mem_append_right _
        (List.mem_filter.mpr ⟨hs, by simp [htr, hc]⟩)

/-! ## Claim C3 -/

/-- C3: a provider that fails to connect or handshake is skipped and the
others proceed: whatever subset of providers fails, every tool of every
successfully connected (and successfully fetched) provider is in the merged
catalog, and its name routes to a connected provider that was fetched
successfully and owns a tool of that name. (Server names are pairwise
distinct, as in the configuration; duplicate names would collapse in the
Python dicts.) -/
theorem C3_partial_failure_isolated (servers : List ServerSpec)
    (s : ServerSpec) (t : MTool)
    (_hnodup : (servers.map (fun x => x.name)).Nodup)
    (hs : s ∈ servers) (hconn : s.connectOk = true)
    (hfetch : s.fetchOk = true) (ht : t ∈ s.tools) :
    t ∈ (connectAndFetch servers).registry.tools ∧
    ∃ q : ServerSpec,
      lastMergedOwner (fetchOrder servers) t.name = some q ∧
      dlookup (connectAndFetch servers).registry.tool_server_map t.name =
        some q.name ∧
      q ∈ fetchOrder servers ∧ q.fetchOk = true ∧
      q.tools.any (fun u => u.name == t.name) = true := by
  have hs' : s ∈ fetchOrder servers :=
    mem_fetchOrder_of_connected servers s hs hconn
  constructor
  · exact mergeFold_tools_mem (fetchOrder servers) emptyRegistry s t hs' hfetch ht
  · have hown : ownsName s t.name = true := by
      have : s.tools.any (fun u => u.name == t.name) = true :=
        List.any_eq_true.mpr ⟨t, ht, by simp⟩
      simp [ownsName, hfetch, this]
    obtain ⟨q, hq⟩ := lastMergedOwner_isSome t.name (fetchOrder servers) s hs' hown
    obtain ⟨hq1, hq2, hq3⟩ := lastMergedOwner_spec t.name (fetchOrder servers) q hq
    refine ⟨q, hq, ?_, hq1, hq2, hq3⟩
    show dlookup ((fetchOrder servers).foldl mergeServer
      emptyRegistry).tool_server_map t.name = some q.name
    rw [mergeFold_server_map]
    simp [hq]

/-- C3 witness: with one HTTP provider failing to connect, a tool of the
connected stdio provider is still in the catalog and routable. -/
theorem C3_partial_failure_isolated_witness :
    (([⟨"gamma", Transport.http, false, true, [⟨"g", "", Json.obj []⟩]⟩,
       ⟨"alpha", Transport.http, true, true, [⟨"ta", "da", Json.obj []⟩]⟩,
       ⟨"beta", Transport.stdio, true, true, [⟨"tb", "db", Json.obj []⟩]⟩] :
        List ServerSpec).map (fun x => x.name)).Nodup ∧
    ((⟨"tb", "db", Json.obj []⟩ : MTool) ∈
      (connectAndFetch
        [⟨"gamma", Transport.http, false, true, [⟨"g", "", Json.obj []⟩]⟩,
         ⟨"alpha", Transport.http, true, true, [⟨"ta", "da", Json.obj []⟩]⟩,
         ⟨"beta", Transport.stdio, true, true, [⟨"tb", "db", Json.obj []⟩]⟩]).registry.tools ∧
      ∃ q : ServerSpec,
        lastMergedOwner (fetchOrder
          [⟨"gamma", Transport.http, false, true, [⟨"g", "", Json.obj []⟩]⟩,
           ⟨"alpha", Transport.http, true, true, [⟨"ta", "da", Json.obj []⟩]⟩,
           ⟨"beta", Transport.stdio, true, true, [⟨"tb", "db", Json.obj []⟩]⟩]) "tb" = some q ∧
        dlookup (connectAndFetch
          [⟨"gamma", Transport.http, false, true, [⟨"g", "", Json.obj []⟩]⟩,
           ⟨"alpha", Transport.http, true, true, [⟨"ta", "da", Json.obj []⟩]⟩,
           ⟨"beta", Transport.stdio, true, true, [⟨"tb", "db", Json.obj []⟩]⟩]).registry.tool_server_map "tb" =
          some q.name ∧
        q ∈ fetchOrder
          [⟨"gamma", Transport.http, false, true, [⟨"g", "", Json.obj []⟩]⟩,
           ⟨"alpha", Transport.http, true, true, [⟨"ta", "da", Json.obj []⟩]⟩,
           ⟨"beta", Transport.stdio, true, true, [⟨"tb", "db", Json.obj []⟩]⟩] ∧
        q.fetchOk = true ∧
        q.tools.any (fun u => u.name == "tb") = true) :=
  ⟨by decide,
   C3_partial_failure_isolated
     [⟨"gamma", Transport.http, false, true, [⟨"g", "", Json.obj []⟩]⟩,
      ⟨"alpha", Transport.http, true, true, [⟨"ta", "da", Json.obj []⟩]⟩,
      ⟨"beta", Transport.stdio, true, true, [⟨"tb", "db", Json.obj []⟩]⟩]
     ⟨"beta", Transport.stdio, true, true, [⟨"tb", "db", Json.obj []⟩]⟩
     ⟨"tb", "db", Json.obj []⟩
     (by decide)
     (List.Mem.tail _ (List.Mem.tail _ (List.Mem.head _)))
     rfl rfl (List.Mem.head _)⟩

/-! ## Claim C5 -/

/-- C5: when two providers expose a tool with the same name, after registry
construction the routing dicts map that name to the provider whose catalog
was merged last (HTTP providers first, then stdio, each in configuration
order), with the matching transport, and `call_tool` dispatches to exactly
that provider's connection. The routing dicts are built once and only read
by `call_tool`, so the resolution is the same on every invocation. -/
theorem C5_duplicate_name_last_wins (servers : List ServerSpec)
    (handlers : String → String → Json → Except String String)
    (nm : String) (args : Json) (s1 s2 : ServerSpec)
    (_hnodup : (servers.map (fun x => x.name)).Nodup)
    (_hs1 : s1 ∈ fetchOrder servers) (_hf1 : s1.fetchOk = true)
    (_hn1 : s1.tools.any (fun t => t.name == nm) = true)
    (hlast : lastMergedOwner (fetchOrder servers) nm = some s2) :
    dlookup (connectAndFetch servers).registry.tool_server_map nm =
      some s2.name ∧
    dlookup (connectAndFetch servers).registry.tool_transport_map nm =
      some s2.transport ∧
    callTool (connectAndFetch servers) handlers nm args =
      handlers s2.name nm args := by
  have hsm : dlookup (connectAndFetch servers).registry.tool_server_map nm =
      some s2.name := by
    show dlookup ((fetchOrder servers).foldl mergeServer
      emptyRegistry).tool_server_map nm = some s2.name
    rw [mergeFold_server_map]
    simp [hlast]
  have htm : dlookup (connectAndFetch servers).registry.tool_transport_map nm =
      some s2.transport := by
    show dlookup ((fetchOrder servers).foldl mergeServer
      emptyRegistry).tool_transport_map nm = some s2.transport
    rw [mergeFold_transport_map]
    simp [hlast]
  obtain ⟨hq1, _, _⟩ := lastMergedOwner_spec nm (fetchOrder servers) s2 hlast
  refine ⟨hsm, htm, ?_⟩
  cases htr : s2.transport with
  | http =>
      have hmemh : s2 ∈ connectedHttp servers := by
        rcases List.mem_append.mp hq1 with h | h
        · exact h
        · exfalso
          have := (List.mem_filter.mp h).2
          simp [htr] at this
      have hname : s2.name ∈ (connectAndFetch servers).httpNames :=
        List.mem_map_of_mem (fun x => x.name) hmemh
      have hcontains : (connectAndFetch servers).httpNames.contains s2.name = true := by
        simpa [List.contains] using List.elem_eq_true_of_mem hname
      simp [callTool, hsm, htm, htr, hcontains]
      intro hno
      exact absurd hname hno
  | stdio =>
      have hmems : s2 ∈ connectedStdio servers := by
        rcases List.mem_append.mp hq1 with h | h
        · exfalso
          have := (List.mem_filter.mp h).2
          simp [htr] at this
        · exact h
      have hname : s2.name ∈ (connectAndFetch servers).stdioNames :=
        List.mem_map_of_mem (fun x => x.name) hmems
      have hcontains : (connectAndFetch servers).stdioNames.contains s2.name = true := by
        simpa [List.contains] using List.elem_eq_true_of_mem hname
      simp [callTool, hsm, htm, htr, hcontains]
      intro hno
      exact absurd hname hno

/-- C5 witness: an HTTP provider `alpha` and a stdio provider `beta` both
expose `dup`; `beta` is merged last, so `dup` routes to `beta` over stdio and
the call dispatches to `beta`'s connection. -/
theorem C5_duplicate_name_last_wins_witness :
    dlookup (connectAndFetch
        [⟨"alpha", Transport.http, true, true, [⟨"dup", "a", Json.obj []⟩]⟩,
         ⟨"beta", Transport.stdio, true, true, [⟨"dup", "b", Json.obj []⟩]⟩]).registry.tool_server_map "dup" =
      some "beta" ∧
    dlookup (connectAndFetch
        [⟨"alpha", Transport.http, true, true, [⟨"dup", "a", Json.obj []⟩]⟩,
         ⟨"beta", Transport.stdio, true, true, [⟨"dup", "b", Json.obj []⟩]⟩]).registry.tool_transport_map "dup" =
      some Transport.stdio ∧
    callTool (connectAndFetch
        [⟨"alpha", Transport.http, true, true, [⟨"dup", "a", Json.obj []⟩]⟩,
         ⟨"beta", Transport.stdio, true, true, [⟨"dup", "b", Json.obj []⟩]⟩])
        (fun sname tname _ => .ok (sname ++ ":" ++ tname)) "dup" (Json.obj []) =
      (fun sname tname (_ : Json) =>
        (Except.ok (sname ++ ":" ++ tname) : Except String String))
        "beta" "dup" (Json.obj []) :=
  C5_duplicate_name_last_wins
    [⟨"alpha", Transport.http, true, true, [⟨"dup", "a", Json.obj []⟩]⟩,
     ⟨"beta", Transport.stdio, true, true, [⟨"dup", "b", Json.obj []⟩]⟩]
    (fun sname tname _ => .ok (sname ++ ":" ++ tname)) "dup" (Json.obj [])
    ⟨"alpha", Transport.http, true, true, [⟨"dup", "a", Json.obj []⟩]⟩
    ⟨"beta", Transport.stdio, true, true, [⟨"dup", "b", Json.obj []⟩]⟩
    (by decide)
    (List.Mem.head _)
    rfl rfl rfl

/-! ## Claim C1 -/

lemma processRequestAt_last (cap : Nat) (catalog : List Json)
    (tool_choice : Option String) (st : LoopState)
    (h : st.iteration + 1 = cap) :
    (processRequestAt cap catalog tool_choice st).tools = none ∧
    (processRequestAt cap catalog tool_choice st).tool_choice = none := by
  have hl : (st.iteration + 1 == cap) = true := by simp [h]
  simp [processRequestAt, hl, mkPayloadTools, mkPayloadChoice]

lemma reviewRequestAt_last (cap : Nat) (catalog : List Json) (st : LoopState)
    (h : st.iteration + 1 = cap) :
    (reviewRequestAt cap catalog st).tools = none ∧
    (reviewRequestAt cap catalog st).tool_choice = none := by
  have hl : (st.iteration + 1 == cap) = true := by simp [h]
  simp [reviewRequestAt, hl, mkPayloadTools, mkPayloadChoice]

lemma processLoopGo_bound (oracle : Nat → Except String ModelResp)
    (router : String → Json → Except String String) (clean : String → String)
    (cap : Nat) (catalog : List Json) (tool_choice : Option String) :
    ∀ (fuel : Nat) (st : LoopState), fuel + st.iteration = cap →
      (∀ r ∈ st.trace, reqBoundOk cap r) →
      (loopOutState (processLoopGo oracle router clean cap catalog tool_choice
        fuel st)).iteration ≤ cap ∧
      ∀ r ∈ (loopOutState (processLoopGo oracle router clean cap catalog
        tool_choice fuel st)).trace, reqBoundOk cap r := by
  intro fuel
  induction fuel with
  | zero =>
      intro st hfuel htrace
      simp only [processLoopGo, loopOutState]
      exact ⟨by omega, htrace⟩
  | succ fuel ih =>
      intro st hfuel htrace
      have hreq : reqBoundOk cap (processRequestAt cap catalog tool_choice st) := by
        refine ⟨?_, ?_⟩
        · show st.iteration + 1 ≤ cap
          omega
        · intro hit
          exact processRequestAt_last cap catalog tool_choice st hit
      have htrace' :
          ∀ r ∈ st.trace ++ [processRequestAt cap catalog tool_choice st],
            reqBoundOk cap r := by
        intro r hr
        rcases List.mem_append.mp hr with h | h
        · exact htrace r h
        · rw [List.mem_singleton.mp h]
          exact hreq
      simp only [processLoopGo]
      cases horacle : oracle st.callIdx with
      | error e =>
          exact ⟨by show st.iteration + 1 ≤ cap; omega, htrace'⟩
      | ok resp =>
          cases hempty : resp.toolCalls.isEmpty with
          | true =>
              simp only [hempty, if_true]
              cases hblank : textIsBlank (applyClean clean resp.text) with
              | true =>
                  simp only [hblank, if_true]
                  have hreq2 : reqBoundOk cap
                      (finalizeRequestAt FINALIZE_PROMPT st) := by
                    refine ⟨?_, fun _ => ⟨rfl, rfl⟩⟩
                    show st.iteration + 1 ≤ cap
                    omega
                  have htrace2 :
                      ∀ r ∈ st.trace ++ [processRequestAt cap catalog tool_choice st,
                        finalizeRequestAt FINALIZE_PROMPT st], reqBoundOk cap r := by
                    intro r hr
                    rcases List.mem_append.mp hr with h | h
                    · exact htrace r h
                    · rcases List.mem_cons.mp h with h1 | h1
                      · rw [h1]; exact hreq
                      · rw [List.mem_singleton.mp h1]; exact hreq2
                  cases horacle2 : oracle (st.callIdx + 1) with
                  | error e =>
                      exact ⟨by show st.iteration + 1 ≤ cap; omega, htrace2⟩
                  | ok resp2 =>
                      exact ⟨by show st.iteration + 1 ≤ cap; omega, htrace2⟩
              | false =>
                  simp only [hblank, Bool.false_eq_true, if_false]
                  exact ⟨by show st.iteration + 1 ≤ cap; omega, htrace'⟩
          | false =>
              simp only [hempty, Bool.false_eq_true, if_false]
              exact ih (toolStepState router st
                (processRequestAt cap catalog tool_choice st)
                (applyClean clean resp.text) resp.toolCalls)
                (by show fuel + (st.iteration + 1) = cap; omega) htrace'

lemma reviewLoopGo_bound (oracle : Nat → Except String ModelResp)
    (router : String → Json → Except String String) (clean : String → String)
    (cap : Nat) (catalog : List Json) :
    ∀ (fuel : Nat) (st : LoopState), fuel + st.iteration = cap →
      (∀ r ∈ st.trace, reqBoundOk cap r) →
      (loopOutState (reviewLoopGo oracle router clean cap catalog
        fuel st)).iteration ≤ cap ∧
      ∀ r ∈ (loopOutState (reviewLoopGo oracle router clean cap catalog
        fuel st)).trace, reqBoundOk cap r := by
  intro fuel
  induction fuel with
  | zero =>
      intro st hfuel htrace
      simp only [reviewLoopGo, loopOutState]
      exact ⟨by omega, htrace⟩
  | succ fuel ih =>
      intro st hfuel htrace
      have hreq : reqBoundOk cap (reviewRequestAt cap catalog st) := by
        refine ⟨?_, ?_⟩
        · show st.iteration + 1 ≤ cap
          omega
        · intro hit
          exact reviewRequestAt_last cap catalog st hit
      have htrace' :
          ∀ r ∈ st.trace ++ [reviewRequestAt cap catalog st], reqBoundOk cap r := by
        intro r hr
        rcases List.mem_append.mp hr with h | h
        · exact htrace r h
        · rw [List.mem_singleton.mp h]
          exact hreq
      simp only [reviewLoopGo]
      cases horacle : oracle st.callIdx with
      | error e =>
          exact ⟨by show st.iteration + 1 ≤ cap; omega, htrace'⟩
      | ok resp =>
          cases hempty : resp.toolCalls.isEmpty with
          | true =>
              simp only [hempty, if_true]
              cases hblank : textIsBlank (applyClean clean resp.text) with
              | true =>
                  simp only [hblank, if_true]
                  have hreq2 : reqBoundOk cap
                      (finalizeRequestAt REVIEW_FINALIZE_PROMPT st) := by
                    refine ⟨?_, fun _ => ⟨rfl, rfl⟩⟩
                    show st.iteration + 1 ≤ cap
                    omega
                  have htrace2 :
                      ∀ r ∈ st.trace ++ [reviewRequestAt cap catalog st,
                        finalizeRequestAt REVIEW_FINALIZE_PROMPT st],
                        reqBoundOk cap r := by
                    intro r hr
                    rcases List.mem_append.mp hr with h | h
                    · exact htrace r h
                    · rcases List.mem_cons.mp h with h1 | h1
                      · rw [h1]; exact hreq
                      · rw [List.mem_singleton.mp h1]; exact hreq2
                  cases horacle2 : oracle (st.callIdx + 1) with
                  | error e =>
                      exact ⟨by show st.iteration + 1 ≤ cap; omega, htrace2⟩
                  | ok resp2 =>
                      exact ⟨by show st.iteration + 1 ≤ cap; omega, htrace2⟩
              | false =>
                  simp only [hblank, Bool.false_eq_true, if_false]
                  exact ⟨by show st.iteration + 1 ≤ cap; omega, htrace'⟩
          | false =>
              simp only [hempty, Bool.false_eq_true, if_false]
              exact ih (toolStepState router st (reviewRequestAt cap catalog st)
                (applyClean clean resp.text) resp.toolCalls)
                (by show fuel + (st.iteration + 1) = cap; omega) htrace'

/-- C1: in both agent loops, for any cap `c ≥ 1`, any model behaviour and any
router behaviour, the iteration counter never exceeds `c`, and every model
request issued at iteration `c` goes out with tools disabled — the payload
carries neither a `tools` nor a `tool_choice` member — regardless of the tool
calls of earlier iterations. -/
theorem C1_iteration_bounded_and_cap_disables_tools
    (oracle : Nat → Except String ModelResp)
    (router : String → Json → Except String String) (clean : String → String)
    (cap : Nat) (catalog : List Json) (initial_messages : List Msg)
    (_hcap : 1 ≤ cap) :
    ((loopOutState (processLoopRun oracle router clean cap catalog
        initial_messages)).iteration ≤ cap ∧
      ∀ r ∈ (loopOutState (processLoopRun oracle router clean cap catalog
        initial_messages)).trace, reqBoundOk cap r) ∧
    ((loopOutState (reviewLoopGo oracle router clean cap catalog cap
        (initLoopState initial_messages))).iteration ≤ cap ∧
      ∀ r ∈ (loopOutState (reviewLoopGo oracle router clean cap catalog cap
        (initLoopState initial_messages))).trace, reqBoundOk cap r) := by
  constructor
  · exact processLoopGo_bound oracle router clean cap catalog
      (if catalog.isEmpty then none else some "auto") cap
      (initLoopState initial_messages) (by simp [initLoopState])
      (by intro r hr; cases hr)
  · exact reviewLoopGo_bound oracle router clean cap catalog cap
      (initLoopState initial_messages) (by simp [initLoopState])
      (by intro r hr; cases hr)

/-- C1 witness: the specification's own scenario — cap 3, the model
requesting one tool call on iterations 1 and 2 and answering on iteration 3
— instantiated for both loops. -/
theorem C1_iteration_bounded_witness :
    1 ≤ 3 ∧
    (((loopOutState (processLoopRun
        (fun n => if n < 2 then
            .ok ⟨none, [⟨"c1", "rag_query", Json.obj [("q", .str "x")]⟩]⟩
          else .ok ⟨some "answer", []⟩)
        (fun _ _ => .ok "payload") id 3 [.obj [("name", .str "rag_query")]]
        [.user "hi"])).iteration ≤ 3 ∧
      ∀ r ∈ (loopOutState (processLoopRun
        (fun n => if n < 2 then
            .ok ⟨none, [⟨"c1", "rag_query", Json.obj [("q", .str "x")]⟩]⟩
          else .ok ⟨some "answer", []⟩)
        (fun _ _ => .ok "payload") id 3 [.obj [("name", .str "rag_query")]]
        [.user "hi"])).trace, reqBoundOk 3 r) ∧
    ((loopOutState (reviewLoopGo
        (fun n => if n < 2 then
            .ok ⟨none, [⟨"c1", "rag_query", Json.obj [("q", .str "x")]⟩]⟩
          else .ok ⟨some "answer", []⟩)
        (fun _ _ => .ok "payload") id 3 [.obj [("name", .str "rag_query")]] 3
        (initLoopState [.user "hi"]))).iteration ≤ 3 ∧
      ∀ r ∈ (loopOutState (reviewLoopGo
        (fun n => if n < 2 then
            .ok ⟨none, [⟨"c1", "rag_query", Json.obj [("q", .str "x")]⟩]⟩
          else .ok ⟨some "answer", []⟩)
        (fun _ _ => .ok "payload") id 3 [.obj [("name", .str "rag_query")]] 3
        (initLoopState [.user "hi"]))).trace, reqBoundOk 3 r)) :=
  ⟨by decide,
   C1_iteration_bounded_and_cap_disables_tools
     (fun n => if n < 2 then
         .ok ⟨none, [⟨"c1", "rag_query", Json.obj [("q", .str "x")]⟩]⟩
       else .ok ⟨some "answer", []⟩)
     (fun _ _ => .ok "payload") id 3 [.obj [("name", .str "rag_query")]]
     [.user "hi"] (by decide)⟩

/-! ## Claim C2 -/

/-- C2: (1) when every model completion returns normally, the loop returns
normally whatever the router does — no tool-level exception escapes the turn;
(2) an iteration whose completion requests calls steps to the next completion
with, for every requested call the router fails, a tool-result message whose
content is `json.dumps({"error": str(e)})` attached to that call's id
appended to the conversation. -/
theorem C2_tool_errors_absorbed (oracle : Nat → Except String ModelResp)
    (router : String → Json → Except String String) (clean : String → String)
    (cap : Nat) (catalog : List Json) (tool_choice : Option String) :
    ((∀ n, ∃ m, oracle n = .ok m) →
      ∀ (fuel : Nat) (st : LoopState), ∃ st',
        processLoopGo oracle router clean cap catalog tool_choice fuel st =
          .ok st') ∧
    (∀ (fuel : Nat) (st : LoopState) (resp : ModelResp),
      oracle st.callIdx = .ok resp → resp.toolCalls ≠ [] →
      processLoopGo oracle router clean cap catalog tool_choice (fuel + 1) st =
        processLoopGo oracle router clean cap catalog tool_choice fuel
          (toolStepState router st (processRequestAt cap catalog tool_choice st)
            (applyClean clean resp.text) resp.toolCalls) ∧
      ∀ tc ∈ resp.toolCalls, ∀ e, router tc.name tc.arguments = .error e →
        Msg.tool tc.id (Json.dumps (.obj [("error", .str e)])) ∈
          (toolStepState router st (processRequestAt cap catalog tool_choice st)
            (applyClean clean resp.text) resp.toolCalls).messages) := by
  constructor
  · intro hok fuel
    induction fuel with
    | zero => intro st; exact ⟨st, rfl⟩
    | succ fuel ih =>
        intro st
        obtain ⟨m, hm⟩ := hok st.callIdx
        simp only [processLoopGo, hm]
        cases hempty : m.toolCalls.isEmpty with
        | true =>
            simp only [if_true]
            cases hblank : textIsBlank (applyClean clean m.text) with
            | true =>
                simp only [if_true]
                obtain ⟨m2, hm2⟩ := hok (st.callIdx + 1)
                simp only [hm2]
                exact ⟨_, rfl⟩
            | false =>
                simp only [Bool.false_eq_true, if_false]
                exact ⟨_, rfl⟩
        | false =>
            simp only [Bool.false_eq_true, if_false]
            exact ih _
  · intro fuel st resp horacle hne
    have hempty : resp.toolCalls.isEmpty = false := by
      cases h : resp.toolCalls with
      | nil => exact absurd h hne
      | cons a l => rfl
    constructor
    · simp only [processLoopGo, horacle, hempty, Bool.false_eq_true, if_false]
    · intro tc htc e hrouter
      show _ ∈ st.messages ++
        [assistantCallsMsg (applyClean clean resp.text) resp.toolCalls] ++
        resp.toolCalls.map (toolResultMsg router)
      refine List.mem_append_right _ ?_
      have := List.mem_map_of_mem (toolResultMsg router) htc
      rwa [show toolResultMsg router tc =
        Msg.tool tc.id (Json.dumps (.obj [("error", .str e)])) by
          simp [toolResultMsg, hrouter]] at this

/-- C2 witness: a router that times out on the single requested call; the
loop returns normally, the error payload message is in the conversation, and
the loop steps to the next completion. -/
theorem C2_tool_errors_absorbed_witness :
    (∃ st', processLoopGo
      (fun n => .ok (if n == 0 then
          ⟨some "t", [⟨"c1", "get_user_tickets", Json.obj []⟩]⟩
        else ⟨some "done", []⟩))
      (fun _ _ => .error "timeout") id 3 [.obj [("name", .str "t")]]
      (some "auto") 3 (initLoopState [.user "hi"]) = .ok st') ∧
    (processLoopGo
      (fun n => .ok (if n == 0 then
          ⟨some "t", [⟨"c1", "get_user_tickets", Json.obj []⟩]⟩
        else ⟨some "done", []⟩))
      (fun _ _ => .error "timeout") id 3 [.obj [("name", .str "t")]]
      (some "auto") (2 + 1) (initLoopState [.user "hi"]) =
      processLoopGo
        (fun n => .ok (if n == 0 then
            ⟨some "t", [⟨"c1", "get_user_tickets", Json.obj []⟩]⟩
          else ⟨some "done", []⟩))
        (fun _ _ => .error "timeout") id 3 [.obj [("name", .str "t")]]
        (some "auto") 2
        (toolStepState (fun _ _ => .error "timeout")
          (initLoopState [.user "hi"])
          (processRequestAt 3 [.obj [("name", .str "t")]] (some "auto")
            (initLoopState [.user "hi"]))
          (applyClean id (some "t"))
          [⟨"c1", "get_user_tickets", Json.obj []⟩]) ∧
      Msg.tool "c1" (Json.dumps (.obj [("error", .str "timeout")])) ∈
        (toolStepState (fun _ _ => .error "timeout")
          (initLoopState [.user "hi"])
          (processRequestAt 3 [.obj [("name", .str "t")]] (some "auto")
            (initLoopState [.user "hi"]))
          (applyClean id (some "t"))
          [⟨"c1", "get_user_tickets", Json.obj []⟩]).messages) := by
  have h := C2_tool_errors_absorbed
    (fun n => .ok (if n == 0 then
        ⟨some "t", [⟨"c1", "get_user_tickets", Json.obj []⟩]⟩
      else ⟨some "done", []⟩))
    (fun _ _ => .error "timeout") id 3 [.obj [("name", .str "t")]] (some "auto")
  refine ⟨h.1 (fun n => ⟨_, rfl⟩) 3 (initLoopState [.user "hi"]), ?_⟩
  have h2 := h.2 2 (initLoopState [.user "hi"])
    ⟨some "t", [⟨"c1", "get_user_tickets", Json.obj []⟩]⟩ rfl
    (List.cons_ne_nil _ _)
  exact ⟨h2.1, h2.2 ⟨"c1", "get_user_tickets", Json.obj []⟩ (List.Mem.head _)
    "timeout" rfl⟩

/-! ## Claim C6 -/

/-- C6: in an iteration where the model requests no tool calls, the loop ends
at that iteration: with non-blank (cleaned) text, that text becomes the final
answer and exactly the one request of the iteration was issued; with blank
text, exactly one additional tool-free finalize request (the nudge user
message appended) is issued and its cleaned text becomes the final answer.
The tool counter and the tool-used flag are unchanged either way. -/
theorem C6_no_calls_ends_loop (oracle : Nat → Except String ModelResp)
    (router : String → Json → Except String String) (clean : String → String)
    (cap : Nat) (catalog : List Json) (tool_choice : Option String)
    (fuel : Nat) (st : LoopState) (resp : ModelResp)
    (horacle : oracle st.callIdx = .ok resp)
    (hnocalls : resp.toolCalls = []) :
    (textIsBlank (applyClean clean resp.text) = false →
      processLoopGo oracle router clean cap catalog tool_choice (fuel + 1) st =
        .ok { st with iteration := st.iteration + 1,
                      response_text := applyClean clean resp.text,
                      callIdx := st.callIdx + 1,
                      trace := st.trace ++
                        [processRequestAt cap catalog tool_choice st] }) ∧
    (textIsBlank (applyClean clean resp.text) = true →
      ∀ resp2, oracle (st.callIdx + 1) = .ok resp2 →
        processLoopGo oracle router clean cap catalog tool_choice (fuel + 1) st =
          .ok { st with
            messages := st.messages ++ [Msg.user FINALIZE_PROMPT],
            iteration := st.iteration + 1,
            response_text := applyClean clean resp2.text,
            callIdx := st.callIdx + 2,
            trace := st.trace ++ [processRequestAt cap catalog tool_choice st,
              finalizeRequestAt FINALIZE_PROMPT st] }) ∧
    (finalizeRequestAt FINALIZE_PROMPT st).tools = none ∧
    (finalizeRequestAt FINALIZE_PROMPT st).tool_choice = none := by
  have hempty : resp.toolCalls.isEmpty = true := by rw [hnocalls]; rfl
  refine ⟨?_, ?_, rfl, rfl⟩
  · intro hblank
    simp only [processLoopGo, horacle, hempty, if_true, hblank,
      Bool.false_eq_true, if_false]
  · intro hblank resp2 horacle2
    simp only [processLoopGo, horacle, hempty, if_true, hblank, horacle2]

/-- C6 witness: a completion with no calls and blank text triggers exactly
one finalize request whose text becomes the final answer, and the loop ends
at that iteration. -/
theorem C6_no_calls_ends_loop_witness :
    ((fun n => if n == 0 then (.ok ⟨some "", []⟩ : Except String ModelResp)
        else .ok ⟨some "final", []⟩) (initLoopState [.user "hi"]).callIdx =
      .ok ⟨some "", []⟩) ∧
    ((⟨some "", []⟩ : ModelResp).toolCalls = []) ∧
    processLoopGo
      (fun n => if n == 0 then (.ok ⟨some "", []⟩ : Except String ModelResp)
        else .ok ⟨some "final", []⟩)
      (fun _ _ => .ok "payload") id 3 [] none (2 + 1)
      (initLoopState [.user "hi"]) =
      .ok { initLoopState [.user "hi"] with
        messages := (initLoopState [.user "hi"]).messages ++
          [Msg.user FINALIZE_PROMPT],
        iteration := (initLoopState [.user "hi"]).iteration + 1,
        response_text := applyClean id (some "final"),
        callIdx := (initLoopState [.user "hi"]).callIdx + 2,
        trace := (initLoopState [.user "hi"]).trace ++
          [processRequestAt 3 [] none (initLoopState [.user "hi"]),
           finalizeRequestAt FINALIZE_PROMPT (initLoopState [.user "hi"])] } :=
  ⟨rfl, rfl, by
    exact (C6_no_calls_ends_loop
      (fun n => if n == 0 then (.ok ⟨some "", []⟩ : Except String ModelResp)
        else .ok ⟨some "final", []⟩)
      (fun _ _ => .ok "payload") id 3 [] none 2 (initLoopState [.user "hi"])
      ⟨some "", []⟩ rfl rfl).2.1 rfl ⟨some "final", []⟩ rfl⟩

/-! ## Claim C7 -/

/-- C7: a raising model completion aborts the iteration with an exception (1),
and a turn whose loop raised returns the single generic failure triple —
`None` response mapped by `process_message` to the generic failure message,
tool-call count 0 and tool-used flag false — whatever partial text or tool
calls earlier iterations produced (2). -/
theorem C7_completion_failure_fatal (oracle : Nat → Except String ModelResp)
    (router : String → Json → Except String String) (clean : String → String)
    (cap : Nat) (catalog : List Json) (initial_messages : List Msg) :
    (∀ (tool_choice : Option String) (fuel : Nat) (st : LoopState) (e : String),
      oracle st.callIdx = .error e →
      ∃ p, processLoopGo oracle router clean cap catalog tool_choice
        (fuel + 1) st = .error p) ∧
    ((∃ p, processLoopRun oracle router clean cap catalog initial_messages =
        .error p) →
      processWithOpenrouter oracle router clean cap catalog initial_messages =
        (none, 0, false) ∧
      processMessageResult (processWithOpenrouter oracle router clean cap
        catalog initial_messages) = ("Sorry, something went wrong.", 0, false)) := by
  constructor
  · intro tool_choice fuel st e horacle
    refine ⟨(e,
      { st with
          iteration := st.iteration + 1
          callIdx := st.callIdx + 1
          trace := st.trace ++ [processRequestAt cap catalog tool_choice st] }),
      ?_⟩
    simp only [processLoopGo, horacle]
  · rintro ⟨p, hp⟩
    have h1 : processWithOpenrouter oracle router clean cap catalog
        initial_messages = (none, 0, false) := by
      simp only [processWithOpenrouter, hp]
    exact ⟨h1, by rw [h1]; rfl⟩

/-- C7 witness: the first iteration succeeds with a tool call and partial
text, the second completion raises; the turn yields the generic failure
triple, the partial answer and the tool-call count both discarded. -/
theorem C7_completion_failure_fatal_witness :
    (∃ p, processLoopGo
      (fun n => if n == 0 then
          .ok ⟨some "partial", [⟨"c1", "rag_query", Json.obj []⟩]⟩
        else .error "boom")
      (fun _ _ => .ok "payload") id 3 [.obj []] (some "auto") (0 + 1)
      { messages := [], iteration := 1, total_tool_calls := 1,
        mcp_was_used := true, response_text := some "partial", callIdx := 1,
        trace := [] } = .error p) ∧
    ((∃ p, processLoopRun
        (fun n => if n == 0 then
            .ok ⟨some "partial", [⟨"c1", "rag_query", Json.obj []⟩]⟩
          else .error "boom")
        (fun _ _ => .ok "payload") id 3 [.obj []] [.user "hi"] = .error p) ∧
      processWithOpenrouter
        (fun n => if n == 0 then
            .ok ⟨some "partial", [⟨"c1", "rag_query", Json.obj []⟩]⟩
          else .error "boom")
        (fun _ _ => .ok "payload") id 3 [.obj []] [.user "hi"] =
        (none, 0, false) ∧
      processMessageResult (processWithOpenrouter
        (fun n => if n == 0 then
            .ok ⟨some "partial", [⟨"c1", "rag_query", Json.obj []⟩]⟩
          else .error "boom")
        (fun _ _ => .ok "payload") id 3 [.obj []] [.user "hi"]) =
        ("Sorry, something went wrong.", 0, false)) := by
  have h := C7_completion_failure_fatal
    (fun n => if n == 0 then
        .ok ⟨some "partial", [⟨"c1", "rag_query", Json.obj []⟩]⟩
      else .error "boom")
    (fun _ _ => .ok "payload") id 3 [.obj []] [.user "hi"]
  have hrun : ∃ p, processLoopRun
      (fun n => if n == 0 then
          .ok ⟨some "partial", [⟨"c1", "rag_query", Json.obj []⟩]⟩
        else .error "boom")
      (fun _ _ => .ok "payload") id 3 [.obj []] [.user "hi"] = .error p :=
    ⟨_, rfl⟩
  exact ⟨h.1 (some "auto") 0
      { messages := [], iteration := 1, total_tool_calls := 1,
        mcp_was_used := true, response_text := some "partial", callIdx := 1,
        trace := [] } "boom" rfl,
    hrun, (h.2 hrun).1, (h.2 hrun).2⟩

/-! ## Claim C9 -/

/-- C9: when the loop ends normally having used at least one tool and with a
non-blank final text, `_process_with_openrouter` returns that text with
`MCP_USED_INDICATOR` appended; when no tool was used, the text is returned
exactly as produced — never tagged. -/
theorem C9_mcp_used_tagging (oracle : Nat → Except String ModelResp)
    (router : String → Json → Except String String) (clean : String → String)
    (cap : Nat) (catalog : List Json) (initial_messages : List Msg)
    (st : LoopState)
    (hrun : processLoopRun oracle router clean cap catalog initial_messages =
      .ok st) :
    (∀ s, st.response_text = some s → s ≠ "" → st.mcp_was_used = true →
      (processWithOpenrouter oracle router clean cap catalog
        initial_messages).1 = some (s ++ MCP_USED_INDICATOR)) ∧
    (st.mcp_was_used = false →
      (processWithOpenrouter oracle router clean cap catalog
        initial_messages).1 = st.response_text) := by
  constructor
  · intro s hs hne hused
    simp only [processWithOpenrouter, hrun, hs, hused]
    simp [hne]
  · intro hused
    simp only [processWithOpenrouter, hrun, hused]
    cases hs : st.response_text with
    | none => simp
    | some s => simp

/-- C9 witness: a turn with one tool call ending in the text `"answer"`
returns `"answer"` with the indicator appended. -/
theorem C9_mcp_used_tagging_witness :
    (processLoopRun
      (fun n => if n == 0 then .ok ⟨none, [⟨"c1", "rag_query", Json.obj []⟩]⟩
        else .ok ⟨some "answer", []⟩)
      (fun _ _ => .ok "payload") id 3 [.obj []] [.user "hi"] =
      .ok (loopOutState (processLoopRun
        (fun n => if n == 0 then .ok ⟨none, [⟨"c1", "rag_query", Json.obj []⟩]⟩
          else .ok ⟨some "answer", []⟩)
        (fun _ _ => .ok "payload") id 3 [.obj []] [.user "hi"]))) ∧
    ((loopOutState (processLoopRun
        (fun n => if n == 0 then .ok ⟨none, [⟨"c1", "rag_query", Json.obj []⟩]⟩
          else .ok ⟨some "answer", []⟩)
        (fun _ _ => .ok "payload") id 3 [.obj []] [.user "hi"])).response_text =
      some "answer") ∧
    (processWithOpenrouter
      (fun n => if n == 0 then .ok ⟨none, [⟨"c1", "rag_query", Json.obj []⟩]⟩
        else .ok ⟨some "answer", []⟩)
      (fun _ _ => .ok "payload") id 3 [.obj []] [.user "hi"]).1 =
      some ("answer" ++ MCP_USED_INDICATOR) := by
  refine ⟨rfl, rfl, ?_⟩
  exact (C9_mcp_used_tagging
    (fun n => if n == 0 then .ok ⟨none, [⟨"c1", "rag_query", Json.obj []⟩]⟩
      else .ok ⟨some "answer", []⟩)
    (fun _ _ => .ok "payload") id 3 [.obj []] [.user "hi"]
    (loopOutState (processLoopRun
      (fun n => if n == 0 then .ok ⟨none, [⟨"c1", "rag_query", Json.obj []⟩]⟩
        else .ok ⟨some "answer", []⟩)
      (fun _ _ => .ok "payload") id 3 [.obj []] [.user "hi"])) rfl).1
    "answer" rfl (by decide) rfl

end McpSystem
